import Mathlib

/-!
Shallow embedding of the `nuice` terminal directory browser
(`src/main.rs` and `src/file_explorer.rs`), together with theorems
settling the specification claims about it.

Modelling conventions:
* An absolute directory path is its list of UTF-8 components (`FsPath`);
  the filesystem root is `[]`.  Rust's `Path::join(name)` for a slash-free
  relative `name` is `p ++ [name]`, `chdir("..")` is `List.dropLast`
  (at the root, `chdir("..")` stays at the root, as on Unix).
* A listed entry (`Entry`) records the bytes of its last path component
  (`nameBytes`, the `OsStr` used for sorting and byte-level comparison),
  the result of `OsStr::to_str` (`nameStr`, `none` when the bytes are not
  valid UTF-8), and the result of the `is_dir()` filesystem query.
* Machine integers: the cursor is an `i32`, modelled as `Int`;
  `(len - 2) as i32` on a `usize` is modelled as `((len - 2 : Nat) : Int)`,
  which agrees with Rust whenever `len ≥ 2` (screen line lists always have
  at least two header lines wherever the subtraction is evaluated).
* Rust's `lines[index]` panics when the index is out of bounds; the model
  uses `List.getD _ ""` / `List.set` (which leave the list unchanged out of
  bounds) and the theorems either restrict to in-bounds indices or record
  the out-of-bounds access explicitly.
-/

namespace Nuice

/-- A directory path as its list of components; `[]` is the filesystem root. -/
abbrev FsPath := List String

/-- One entry of `read_dir`: the bytes of the file name (last path component),
its `OsStr::to_str` view (`none` for non-UTF-8 names), and the `is_dir()` flag. -/
structure Entry where
  nameBytes : List Nat
  nameStr : Option String
  isDir : Bool
  deriving DecidableEq, Repr

/-- Rust `char::is_whitespace`: the Unicode White_Space property —
U+0009..U+000D, U+0020, U+0085, U+00A0, U+1680, U+2000..U+200A, U+2028,
U+2029, U+202F, U+205F and U+3000.  (Lean's own whitespace predicate covers
only space, tab, CR and LF, which is narrower than what the Rust code
strips, so it is not used here.) -/
def rustIsWhitespace (c : Char) : Bool :=
  (9 ≤ c.toNat && c.toNat ≤ 13) || c.toNat == 32 || c.toNat == 0x85 ||
  c.toNat == 0xA0 || c.toNat == 0x1680 ||
  (0x2000 ≤ c.toNat && c.toNat ≤ 0x200A) ||
  c.toNat == 0x2028 || c.toNat == 0x2029 || c.toNat == 0x202F ||
  c.toNat == 0x205F || c.toNat == 0x3000

/-- Rust `str::trim_start`: drop leading whitespace characters. -/
def trimStart (s : String) : String := ⟨s.data.dropWhile rustIsWhitespace⟩

/-- Rust `str::trim_end_matches('/')`: drop every trailing `'/'`. -/
def trimEndSlashes (s : String) : String :=
  ⟨(s.data.reverse.dropWhile (fun c => c == '/')).reverse⟩

/-- Rust `str::replace(s, ">", " ")`: replace every `'>'` by a space. -/
def replaceGt (s : String) : String :=
  ⟨s.data.map (fun c => if c == '>' then ' ' else c)⟩

/-- Rust `str::ends_with('/')`: the last character is `'/'`. -/
def endsWithSlash (s : String) : Bool := s.data.getLast? == some '/'

/-- A rendered line "carries the cursor marker" when it begins with `" > "`. -/
def hasMarker (s : String) : Bool := [' ', '>', ' '].isPrefixOf s.data

/-- Rendering of one entry: `pathbuf_to_string` (main.rs) / `format_pathbuf` (file_explorer.rs):
render one listed entry; directories get a trailing `'/'`, files the bare
name, and an entry whose last component is absent or not valid UTF-8
renders as the empty string. -/
def pathbuf_to_string (e : Entry) : String :=
  match e.nameStr with
  | some v => if e.isDir then "   " ++ v ++ "/" else "   " ++ v
  | none => ""

/-- The synthetic placeholder `PathBuf::from("   ../")` substituted for an
empty listing.  Its `file_name()` is `Some("   ..")` (the component `"   .."`
is `Normal`, not `ParentDir`, because of the leading spaces), which is valid
UTF-8; `is_dir()` is `false` because the current directory — being empty —
contains no entry named `"   .."`. -/
def placeholder : Entry :=
  { nameBytes := [32, 32, 32, 46, 46], nameStr := some "   ..", isDir := false }

/-- Screen formatting: `format_screen_lines` (main.rs) / `format_lines` (file_explorer.rs):
line 0 is the current directory (main.rs reads it from the environment,
file_explorer.rs receives it; both are the parameter here), line 1 is blank,
then one rendered line per entry (an empty listing is replaced by the
placeholder), and the line at `cursor + 2` is overwritten with
`" > " ++` its own `trim_start`. -/
def format_screen_lines (current_dir : String) (cursor : Int) (content : List Entry) :
    List String :=
  let content := if content.isEmpty then [placeholder] else content
  let lines := current_dir :: "" :: content.map pathbuf_to_string
  let index := (cursor + 2).toNat
  lines.set index (" > " ++ trimStart (lines.getD index ""))

/-- The path-derivation and guard of `move_into_dir` (main.rs): read the
screen line under the cursor, trim leading whitespace, and — only when that
trimmed line ends in `'/'` — build the `chdir` target by stripping trailing
`'/'`, replacing every `'>'` with a space, trimming leading whitespace again,
and joining onto the current directory.  `none` means no `chdir` happens. -/
def move_into_target (screen_lines : List String) (cursor : Int) (current_dir : FsPath) :
    Option FsPath :=
  let line := screen_lines.getD (cursor + 2).toNat ""
  let path := trimStart line
  let newdir := trimEndSlashes path
  let newdir := replaceGt newdir
  let newdir := trimStart newdir
  if endsWithSlash path then some (current_dir ++ [newdir]) else none

/-- Operation kind `OpKind` (main.rs): the only variant is `Out`. -/
inductive OpKind
  | Out
  deriving DecidableEq, Repr

/-- Operation record `Op` (main.rs): a kind plus the directory it applies to. -/
structure Op where
  kind : OpKind
  path : Option FsPath
  deriving DecidableEq, Repr

/-- Navigator state `State` (main.rs): cursor, current directory, per-directory position
memory (`HashMap<PathBuf, i32>` as an association list), the previous
operation, and the rendered screen lines. -/
structure State where
  cursor : Int
  dir : FsPath
  paths : List (FsPath × Int)
  prev_op : Option Op
  screen_lines : List String
  deriving DecidableEq, Repr

/-- Command `move_down` (main.rs): advance the cursor unless `cursor + 1` would reach
`screen_lines.len() - 2` (the number of entry rows). -/
def move_down (s : State) : Int :=
  if s.cursor + 1 < ((s.screen_lines.length - 2 : Nat) : Int) then s.cursor + 1
  else s.cursor

/-- Command `move_up` (main.rs): retreat the cursor, stopping at 0. -/
def move_up (s : State) : Int :=
  if s.cursor > 0 then s.cursor - 1 else 0

/-- Function `cursor_position` (main.rs): if the position memory holds the current
directory, return the remembered index unchanged; otherwise, after a
`MoveOut`, find the index of the fresh listing's entry whose file name equals
the last component of the directory just left (defaulting to 0); otherwise 0.
`content` stands for the `get_dir_content()` re-listing of the current
directory made inside the function. -/
def cursor_position (s : State) (content : List Entry) : Int :=
  match s.paths.lookup s.dir with
  | some c => c
  | none =>
    match s.prev_op with
    | some op =>
      match op.kind with
      | OpKind.Out =>
        let last : String :=
          match op.path with
          | some p =>
            match p.getLast? with
            | some v => v
            | none => ""
          | none => ""
        (((content.findIdx? (fun x => x.nameStr == some last)).getD 0 : Nat) : Int)
    | none => 0

/-- The name `cursor_position` searches for after a `MoveOut`: the
`file_name()` of the directory just left (`OsStr::new("")`, i.e. the empty
string, when that path has no last component). -/
def hintName (p : FsPath) : String :=
  match p.getLast? with
  | some v => v
  | none => ""

/-- Keypress dispatch `handle_keypress` (main.rs) plus the ambient working directory that the
Rust code mutates through `std::env::set_current_dir`: `'j'`/`'k'` move the
cursor and clear `prev_op`; `'h'` is `move_out_of_dir` (chdir `".."`, cursor
unchanged) and records `Op { kind: Out, path: state.dir }`; `'l'` is
`move_into_dir` (chdir to the derived target when the guard fires, cursor
unchanged) and clears `prev_op`; any other key changes nothing. -/
def handle_keypress (c : Char) (cwd : FsPath) (s : State) : FsPath × State :=
  if c = 'j' then (cwd, { s with cursor := move_down s, prev_op := none })
  else if c = 'k' then (cwd, { s with cursor := move_up s, prev_op := none })
  else if c = 'h' then
    (cwd.dropLast,
     { s with cursor := s.cursor, prev_op := some { kind := OpKind.Out, path := some s.dir } })
  else if c = 'l' then
    match move_into_target s.screen_lines s.cursor cwd with
    | some p => (p, { s with cursor := s.cursor, prev_op := none })
    | none => (cwd, { s with cursor := s.cursor, prev_op := none })
  else (cwd, s)

/-- Lexicographic (byte-wise, case-sensitive) order on byte lists: the order
`OsStr`/`PathBuf` comparison uses on each component's bytes. -/
def bytesLe : List Nat → List Nat → Bool
  | [], _ => true
  | _ :: _, [] => false
  | a :: as, b :: bs => if a < b then true else if b < a then false else bytesLe as bs

/-- The `Ord`-comparison `entries.sort()` uses: for the `"./name"` paths that
`read_dir(".")` yields, `PathBuf`'s component-wise order reduces to the byte
order of the file names (the `"./"` component is shared and file names
contain no `'/'` byte). -/
def pathLe (a b : Entry) : Prop := bytesLe a.nameBytes b.nameBytes = true

instance : DecidableRel pathLe := fun a b =>
  inferInstanceAs (Decidable (bytesLe a.nameBytes b.nameBytes = true))

/-- Directory lister `get_dir_content` (main.rs): collect the `read_dir(".")` entries (the
parameter, in the order the operating system yields them) and sort them;
`Vec::sort` is a stable sort by `Ord`, modelled by insertion sort over
`pathLe`. -/
def get_dir_content (entries : List Entry) : List Entry :=
  List.insertionSort pathLe entries

/-- The bytes of the full path string `"./name"` of a listed entry
(`0x2E = '.'`, `0x2F = '/'`). -/
def fullPathBytes (e : Entry) : List Nat := 46 :: 47 :: e.nameBytes

/-- Byte-lexicographic order on the full `"./name"` path strings. -/
def fullPathLe (a b : Entry) : Prop := bytesLe (fullPathBytes a) (fullPathBytes b) = true

/-- Modelled from the spec: the hidden-file-aware lister — `Cursor::current_siblings`
together with the `toggle_hidden_files` policy — lives in the `cursor` module
(`cursor.rs`), which is not present under src/ (file_explorer.rs only calls it).
Spec: "Filters out dotfile-named entries when `hidden_policy` is \"hide hidden\"" and
"entries whose name begins with a dot are excluded from the Listing before
sorting/indexing" (a dot is byte `0x2E = 46`). -/
def current_siblings (entries : List Entry) (hide_hidden : Bool) : List Entry :=
  let kept :=
    if hide_hidden then entries.filter (fun e => !(e.nameBytes.head? == some 46))
    else entries
  List.insertionSort pathLe kept

/-- Terminal-boundary actions performed by `run` (main.rs and
file_explorer.rs have the same structure).  The per-line `Print` actions of
an iteration are elided (they are irrelevant to the mode-restore contract). -/
inductive TAction
  | enterAlt
  | enableRaw
  | resetColor
  | clearAll
  | hideCursor
  | moveTo
  | flush
  | showCursor
  | leaveAlt
  | disableRaw
  deriving DecidableEq, Repr

/-- The outcome of one loop iteration's fallible work: either the blocking
read yields a key, or some `?`-propagated `IOError`/`TerminalError` aborts
the iteration. -/
inductive IoEvent
  | key (c : Char)
  | ioError
  deriving DecidableEq, Repr

/-- The post-loop restore block of `run`: reset color, show cursor, leave the
alternate screen, disable raw mode. -/
def restoreActions : List TAction :=
  [TAction.resetColor, TAction.showCursor, TAction.leaveAlt, TAction.disableRaw]

/-- The control loop of `run`: each iteration queues its draw actions and
flushes, then consumes the next event.  `'q'` breaks out of the loop and runs
the restore block; any other key continues; a propagated error returns from
`run` at once (Rust `?`), carrying the actions performed so far — there is no
scope guard, so nothing else runs.  An exhausted event source blocks forever
in `read_char`; it is modelled as an error outcome and not used by theorems. -/
def runLoop : List IoEvent → List TAction → Except (List TAction) (List TAction)
  | [], acc => Except.error acc
  | e :: rest, acc =>
    let acc := acc ++
      [TAction.resetColor, TAction.clearAll, TAction.hideCursor, TAction.moveTo, TAction.flush]
    match e with
    | IoEvent.key c => if c = 'q' then Except.ok (acc ++ restoreActions) else runLoop rest acc
    | IoEvent.ioError => Except.error acc

/-- Control loop `run` (main.rs / file_explorer.rs): enter the alternate screen, enable
raw mode, then the loop; the restore block runs only after a `'q'` break. -/
def run (events : List IoEvent) : Except (List TAction) (List TAction) :=
  runLoop events [TAction.enterAlt, TAction.enableRaw]

/-! ### Order properties of the byte-lexicographic comparison -/

theorem bytesLe_total : ∀ a b : List Nat, bytesLe a b = true ∨ bytesLe b a = true
  | [], _ => Or.inl rfl
  | _ :: _, [] => Or.inr rfl
  | a :: as, b :: bs => by
    rcases Nat.lt_trichotomy a b with h | h | h
    · left; simp [bytesLe, h]
    · subst h
      rcases bytesLe_total as bs with ih | ih <;> simp [bytesLe, ih]
    · right; simp [bytesLe, h]

theorem bytesLe_trans :
    ∀ {a b c : List Nat}, bytesLe a b = true → bytesLe b c = true → bytesLe a c = true
  | [], _, _, _, _ => rfl
  | _ :: _, [], _, h, _ => by simp [bytesLe] at h
  | _ :: _, _ :: _, [], _, h => by simp [bytesLe] at h
  | a :: as, b :: bs, c :: cs, hab, hbc => by
    by_cases h1 : a < b
    · rcases Nat.lt_trichotomy b c with h2 | h2 | h2
      · simp [bytesLe, Nat.lt_trans h1 h2]
      · subst h2; simp [bytesLe, h1]
      · simp [bytesLe, h2, Nat.lt_asymm h2] at hbc
    · by_cases h2 : b < a
      · simp [bytesLe, h1, h2] at hab
      · have hba : a = b := Nat.le_antisymm (Nat.le_of_not_lt h2) (Nat.le_of_not_lt h1)
        subst hba
        by_cases h3 : a < c
        · simp [bytesLe, h3]
        · by_cases h4 : c < a
          · simp [bytesLe, h3, h4] at hbc
          · simp [bytesLe, h1, h2] at hab
            simp [bytesLe, h3, h4] at hbc
            simp [bytesLe, h3, h4, bytesLe_trans hab hbc]

instance : IsTotal Entry pathLe :=
  ⟨fun a b => bytesLe_total a.nameBytes b.nameBytes⟩

instance : IsTrans Entry pathLe :=
  ⟨fun _ _ _ hab hbc => bytesLe_trans hab hbc⟩

theorem bytesLe_cons_same (c : Nat) (xs ys : List Nat) :
    bytesLe (c :: xs) (c :: ys) = bytesLe xs ys := by
  simp [bytesLe]

theorem fullPathLe_iff (a b : Entry) : fullPathLe a b ↔ pathLe a b := by
  unfold fullPathLe pathLe fullPathBytes
  rw [bytesLe_cons_same, bytesLe_cons_same]

/-! ### List and string helper lemmas -/

theorem dropWhile_append_last {α : Type} (p : α → Bool) (l : List α) (x : α)
    (hx : p x = false) : (l ++ [x]).dropWhile p = l.dropWhile p ++ [x] := by
  induction l with
  | nil => simp [List.dropWhile_cons, hx]
  | cons a as ih =>
    by_cases h : p a = true
    · simpa [List.dropWhile_cons, h] using ih
    · simp [List.dropWhile_cons, h]

theorem dropWhile_eq_self_of_head {α : Type} (p : α → Bool) (l : List α)
    (h : ∀ a, l.head? = some a → p a = false) : l.dropWhile p = l := by
  cases l with
  | nil => rfl
  | cons a as => simp [List.dropWhile_cons, h a rfl]

theorem mem_of_mem_dropWhile {α : Type} {p : α → Bool} {l : List α} {a : α}
    (h : a ∈ l.dropWhile p) : a ∈ l :=
  List.Sublist.mem h (List.dropWhile_sublist p)

theorem replaceGt_not_mem (s : String) : '>' ∉ (replaceGt s).data := by
  intro h
  unfold replaceGt at h
  simp only [List.mem_map] at h
  obtain ⟨c, _, hc⟩ := h
  by_cases h' : c = '>'
  · simp [h'] at hc
  · simp only [beq_iff_eq, if_neg h'] at hc
    exact h' hc

theorem map_replaceGt_of_not_mem {l : List Char} (h : '>' ∉ l) :
    l.map (fun c => if c == '>' then ' ' else c) = l := by
  have : ∀ c ∈ l, (if c == '>' then ' ' else c) = id c := by
    intro c hc
    have : ¬(c = '>') := fun hcg => h (hcg ▸ hc)
    simp [this]
  rw [List.map_congr_left this, List.map_id]

theorem findIdx?_eq_some_of {α : Type} (p : α → Bool) :
    ∀ (l : List α) (i : Nat) (hi : i < l.length),
      p (l.get ⟨i, hi⟩) = true →
      (∀ j (hj : j < i), p (l.get ⟨j, Nat.lt_trans hj hi⟩) = false) →
      l.findIdx? p = some i
  | [], i, hi, _, _ => absurd hi (Nat.not_lt_zero i)
  | a :: as, 0, _, hp, _ => by simp_all [List.findIdx?_cons]
  | a :: as, i + 1, hi, hp, hbefore => by
    have ha : p a = false := hbefore 0 (Nat.succ_pos i)
    have ih : as.findIdx? p = some i :=
      findIdx?_eq_some_of p as i (Nat.lt_of_succ_lt_succ hi)
        hp (fun j hj => hbefore (j + 1) (Nat.succ_lt_succ hj))
    simp [List.findIdx?_cons, ha, List.findIdx?_succ, ih]

/-! ### Screen-line formatter lemmas -/

theorem format_screen_lines_eq (d : String) (cursor : Nat) (content : List Entry)
    (h : content ≠ []) :
    format_screen_lines d (cursor : Int) content =
      (d :: "" :: content.map pathbuf_to_string).set (cursor + 2)
        (" > " ++ trimStart ((d :: "" :: content.map pathbuf_to_string).getD (cursor + 2) "")) := by
  have h1 : content.isEmpty = false := by
    cases content with
    | nil => exact absurd rfl h
    | cons a as => rfl
  have h2 : ((cursor : Int) + 2).toNat = cursor + 2 := by omega
  unfold format_screen_lines
  simp only [h1, Bool.false_eq_true, if_false, h2]

theorem format_screen_lines_length (d : String) (cursor : Nat) (content : List Entry)
    (h : content ≠ []) :
    (format_screen_lines d (cursor : Int) content).length = content.length + 2 := by
  rw [format_screen_lines_eq d cursor content h]
  simp

theorem format_screen_lines_zero (d : String) (cursor : Nat) (content : List Entry)
    (h : content ≠ []) :
    (format_screen_lines d (cursor : Int) content)[0]? = some d := by
  rw [format_screen_lines_eq d cursor content h,
    List.getElem?_set_ne (by omega : cursor + 2 ≠ 0)]
  rfl

theorem format_screen_lines_one (d : String) (cursor : Nat) (content : List Entry)
    (h : content ≠ []) :
    (format_screen_lines d (cursor : Int) content)[1]? = some "" := by
  rw [format_screen_lines_eq d cursor content h,
    List.getElem?_set_ne (by omega : cursor + 2 ≠ 1)]
  simp

theorem format_screen_lines_entry_ne (d : String) (cursor : Nat) (content : List Entry)
    (h : content ≠ []) (i : Nat) (hi : i < content.length) (hne : i ≠ cursor) :
    (format_screen_lines d (cursor : Int) content)[i + 2]? =
      some (pathbuf_to_string (content.get ⟨i, hi⟩)) := by
  rw [format_screen_lines_eq d cursor content h,
    List.getElem?_set_ne (by omega : cursor + 2 ≠ i + 2)]
  rw [show i + 2 = (i + 1) + 1 from rfl, List.getElem?_cons_succ, List.getElem?_cons_succ,
    List.getElem?_map, List.getElem?_eq_getElem hi]
  rfl

theorem format_screen_lines_entry_cursor (d : String) (cursor : Nat) (content : List Entry)
    (h : content ≠ []) (hc : cursor < content.length) :
    (format_screen_lines d (cursor : Int) content)[cursor + 2]? =
      some (" > " ++ trimStart (pathbuf_to_string (content.get ⟨cursor, hc⟩))) := by
  rw [format_screen_lines_eq d cursor content h,
    List.getElem?_set_eq_of_lt _ (by simp; omega)]
  have hget : ((d :: "" :: content.map pathbuf_to_string).getD (cursor + 2) "") =
      pathbuf_to_string (content.get ⟨cursor, hc⟩) := by
    rw [List.getD_eq_getElem?_getD, show cursor + 2 = (cursor + 1) + 1 from rfl,
      List.getElem?_cons_succ, List.getElem?_cons_succ,
      List.getElem?_map, List.getElem?_eq_getElem hc]
    rfl
  rw [hget]

theorem format_screen_lines_getD_cursor (d : String) (cursor : Nat) (content : List Entry)
    (h : content ≠ []) (hc : cursor < content.length) :
    (format_screen_lines d (cursor : Int) content).getD (cursor + 2) "" =
      " > " ++ trimStart (pathbuf_to_string (content.get ⟨cursor, hc⟩)) := by
  rw [List.getD_eq_getElem?_getD, format_screen_lines_entry_cursor d cursor content h hc]
  rfl

/-! ### Marker lemmas -/

theorem isPrefixOf_marker_two_spaces (l : List Char) :
    [' ', '>', ' '].isPrefixOf (' ' :: ' ' :: l) = false := by
  simp [List.isPrefixOf]

theorem hasMarker_marker (s : String) : hasMarker (" > " ++ s) = true := by
  unfold hasMarker
  rw [String.data_append]
  show [' ', '>', ' '].isPrefixOf ([' ', '>', ' '] ++ s.data) = true
  simp [List.isPrefixOf]

theorem hasMarker_pathbuf_to_string (e : Entry) : hasMarker (pathbuf_to_string e) = false := by
  unfold pathbuf_to_string
  match hn : e.nameStr with
  | none => rfl
  | some v =>
    cases hd : e.isDir
    · show hasMarker ("   " ++ v) = false
      unfold hasMarker
      rw [String.data_append]
      show [' ', '>', ' '].isPrefixOf (' ' :: ' ' :: (' ' :: v.data)) = false
      exact isPrefixOf_marker_two_spaces _
    · show hasMarker ("   " ++ v ++ "/") = false
      unfold hasMarker
      rw [String.data_append, String.data_append]
      show [' ', '>', ' '].isPrefixOf ((' ' :: ' ' :: (' ' :: v.data)) ++ _) = false
      rw [List.cons_append, List.cons_append]
      exact isPrefixOf_marker_two_spaces _

/-! ### Path derivation of `move_into_dir` on a rendered directory line -/

theorem trimStart_data (s : String) :
    (trimStart s).data = s.data.dropWhile rustIsWhitespace := rfl

theorem inner_dir_line (v : String) :
    (trimStart ("   " ++ v ++ "/")).data =
      v.data.dropWhile rustIsWhitespace ++ ['/'] := by
  rw [trimStart_data, String.data_append, String.data_append]
  show List.dropWhile rustIsWhitespace ((' ' :: ' ' :: ' ' :: v.data) ++ ['/']) = _
  rw [List.cons_append, List.cons_append, List.cons_append]
  show List.dropWhile rustIsWhitespace (v.data ++ ['/']) = _
  exact dropWhile_append_last _ v.data '/' rfl

theorem marker_line_path (v : String) :
    (trimStart (" > " ++ trimStart ("   " ++ v ++ "/"))).data =
      '>' :: ' ' :: (v.data.dropWhile rustIsWhitespace ++ ['/']) := by
  rw [trimStart_data, String.data_append, inner_dir_line]
  rfl

theorem endsWithSlash_marker_dir (v : String) :
    endsWithSlash (trimStart (" > " ++ trimStart ("   " ++ v ++ "/"))) = true := by
  unfold endsWithSlash
  rw [marker_line_path,
    show '>' :: ' ' :: (v.data.dropWhile rustIsWhitespace ++ ['/']) =
      ('>' :: ' ' :: v.data.dropWhile rustIsWhitespace) ++ ['/'] by simp,
    List.getLast?_concat]
  rfl

theorem move_target_clean (v : String)
    (hgt : '>' ∉ v.data) (hsl : v.data.getLast? ≠ some '/')
    (hws : v.data.dropWhile rustIsWhitespace = v.data) :
    trimStart (replaceGt (trimEndSlashes
      (trimStart (" > " ++ trimStart ("   " ++ v ++ "/"))))) = v := by
  apply String.ext
  have h1 : (trimEndSlashes (trimStart (" > " ++ trimStart ("   " ++ v ++ "/")))).data =
      '>' :: ' ' :: v.data := by
    unfold trimEndSlashes
    rw [marker_line_path, hws]
    have hrev : ('>' :: ' ' :: (v.data ++ ['/'])).reverse =
        '/' :: (v.data.reverse ++ [' ', '>']) := by
      simp [List.reverse_cons, List.reverse_append]
    rw [hrev]
    show ((List.dropWhile (fun c => c == '/') (v.data.reverse ++ [' ', '>']))).reverse = _
    rw [dropWhile_eq_self_of_head (fun c => c == '/') (v.data.reverse ++ [' ', '>'])
      (by
        intro a ha
        cases hr : v.data.reverse with
        | nil =>
          rw [hr] at ha
          simp at ha
          simp [← ha]
        | cons c cs =>
          rw [hr] at ha
          simp at ha
          have hlast : v.data.getLast? = some c := by
            rw [← List.head?_reverse, hr]
            rfl
          have : ¬(a = '/') := by
            rw [← ha]
            intro hcontra
            exact hsl (by rw [hlast, hcontra])
          simp [this])]
    simp [List.reverse_append]
  rw [trimStart_data]
  unfold replaceGt
  rw [h1]
  show List.dropWhile rustIsWhitespace
    (' ' :: ' ' :: v.data.map (fun c => if c == '>' then ' ' else c)) = _
  rw [map_replaceGt_of_not_mem hgt]
  show List.dropWhile rustIsWhitespace v.data = _
  exact hws

theorem move_target_not_mem_gt (s : String) :
    '>' ∉ (trimStart (replaceGt s)).data := by
  intro h
  rw [trimStart_data] at h
  exact replaceGt_not_mem s (mem_of_mem_dropWhile h)

theorem move_into_target_eq (lines : List String) (cursor : Nat) (cwd : FsPath) :
    move_into_target lines (cursor : Int) cwd =
      (if endsWithSlash (trimStart (lines.getD (cursor + 2) "")) then
        some (cwd ++ [trimStart (replaceGt (trimEndSlashes
          (trimStart (lines.getD (cursor + 2) ""))))])
      else none) := by
  unfold move_into_target
  rw [show ((cursor : Int) + 2).toNat = cursor + 2 by omega]

theorem getElem?_some_lt {α : Type} {l : List α} {i : Nat} {e : α}
    (h : l[i]? = some e) : i < l.length := by
  by_contra hle
  rw [List.getElem?_eq_none (by omega)] at h
  exact absurd h (by simp)

theorem get_of_getElem? {α : Type} {l : List α} {i : Nat} {e : α}
    (h : l[i]? = some e) (hi : i < l.length) : l.get ⟨i, hi⟩ = e := by
  have h1 := List.getElem?_eq_getElem hi
  rw [h] at h1
  exact Option.some_injective _ h1.symm

/-! ### Claim theorems -/

/-- C1 (code bug): `cursor_position` restores a remembered `PositionMemory`
index without clamping it to the fresh listing's length.  Here the memory
remembers index 3 for the current directory while that directory now lists a
single entry: the restored cursor is 3, violating the claimed invariant
`0 ≤ cursor < max 1 (len listing)` (and `format_screen_lines` would then
index `lines[5]`, a panic in the Rust code). -/
theorem C1_restore_unclamped :
    cursor_position
      { cursor := 0, dir := ["home"], paths := [(["home"], 3)], prev_op := none,
        screen_lines := [] }
      [{ nameBytes := [97], nameStr := some "a", isDir := false }] = 3 ∧
    max 1 (([{ nameBytes := [97], nameStr := some "a", isDir := false }] : List Entry).length : Int)
      ≤ cursor_position
          { cursor := 0, dir := ["home"], paths := [(["home"], 3)], prev_op := none,
            screen_lines := [] }
          [{ nameBytes := [97], nameStr := some "a", isDir := false }] := by
  constructor
  · rfl
  · decide

/-- C2 (code bug): when an `IOError`/`TerminalError` propagates out of a loop
iteration, `run` returns through `?` at once; the restore block (reset color,
show cursor, leave alternate screen, disable raw mode) placed after the loop
is skipped — there is no scoped-release guard in either `run`.  The action
trace of a run whose first iteration fails contains no show-cursor,
leave-alternate-screen or disable-raw-mode action. -/
theorem C2_error_skips_restore :
    Nuice.run [IoEvent.ioError] =
      Except.error [TAction.enterAlt, TAction.enableRaw, TAction.resetColor,
        TAction.clearAll, TAction.hideCursor, TAction.moveTo, TAction.flush] ∧
    ([TAction.enterAlt, TAction.enableRaw, TAction.resetColor, TAction.clearAll,
        TAction.hideCursor, TAction.moveTo, TAction.flush].contains TAction.showCursor) = false ∧
    ([TAction.enterAlt, TAction.enableRaw, TAction.resetColor, TAction.clearAll,
        TAction.hideCursor, TAction.moveTo, TAction.flush].contains TAction.leaveAlt) = false ∧
    ([TAction.enterAlt, TAction.enableRaw, TAction.resetColor, TAction.clearAll,
        TAction.hideCursor, TAction.moveTo, TAction.flush].contains TAction.disableRaw) = false := by
  refine ⟨rfl, by decide, by decide, by decide⟩

/-- C3 (confirmed): a directory with zero real entries presents exactly one
synthetic placeholder row (the listing is the two header lines plus the
single placeholder line, rendered `" > .."` under the cursor), and MoveInto
on the placeholder is a no-op: the placeholder renders without a trailing
`'/'` (it is not a real directory — an empty directory has no entry named
`"   .."`), so `move_into_dir` attempts no `chdir` and the working directory
is unchanged. -/
theorem C3_empty_dir_placeholder_noop (d : String) (cwd dir0 : FsPath)
    (ps : List (FsPath × Int)) (po : Option Op) :
    format_screen_lines d 0 [] = [d, "", " > .."] ∧
    move_into_target (format_screen_lines d 0 []) 0 cwd = none ∧
    (handle_keypress 'l' cwd
      { cursor := 0, dir := dir0, paths := ps, prev_op := po,
        screen_lines := format_screen_lines d 0 [] }).1 = cwd := by
  exact ⟨rfl, rfl, rfl⟩

/-- C7 (confirmed): `get_dir_content` returns the `read_dir` entries sorted
lexicographically by the bytes of the full `"./name"` path string
(case-sensitive byte order), as a permutation of all entries — directories
and files are sorted by path alone, interleaved, never grouped or dropped. -/
theorem C7_sorted_listing (entries : List Entry) :
    List.Sorted fullPathLe (get_dir_content entries) ∧
    (get_dir_content entries).Perm entries := by
  constructor
  · exact (List.sorted_insertionSort pathLe entries).imp
      (fun h => (fullPathLe_iff _ _).mpr h)
  · exact List.perm_insertionSort pathLe entries

/-- C4 (confirmed, spec-modelled): with the hide-hidden policy on, the
produced Listing is a sorted permutation of exactly the entries whose name
does not begin with a dot — every dotfile-named entry is excluded, and the
exclusion happens before sorting and indexing (the sort runs on the
already-filtered list). -/
theorem C4_hidden_filtered (entries : List Entry) :
    ((current_siblings entries true).all (fun e => !(e.nameBytes.head? == some 46))) = true ∧
    List.Sorted fullPathLe (current_siblings entries true) ∧
    (current_siblings entries true).Perm
      (entries.filter (fun e => !(e.nameBytes.head? == some 46))) := by
  have heq : current_siblings entries true =
      List.insertionSort pathLe
        (entries.filter (fun e => !(e.nameBytes.head? == some 46))) := rfl
  refine ⟨?_, ?_, ?_⟩
  · rw [List.all_eq_true]
    intro x hx
    rw [heq] at hx
    have hmem := (List.perm_insertionSort pathLe _).mem_iff.mp hx
    exact (List.mem_filter.mp hmem).2
  · rw [heq]
    exact (List.sorted_insertionSort pathLe _).imp
      (fun h => (fullPathLe_iff _ _).mpr h)
  · rw [heq]
    exact List.perm_insertionSort pathLe _

/-- C5 (counterexample): the claim says the hint decides the cursor after
every MoveOut, but `cursor_position` consults `PositionMemory` first.  Here
the parent `["r"]` has remembered index 0 while the directory just left,
`["r", "b"]`, sits at index 1 of the fresh listing: the cursor becomes 0,
not the hint's index 1. -/
theorem C5_counterexample :
    cursor_position
      { cursor := 0, dir := ["r"], paths := [(["r"], 0)],
        prev_op := some { kind := OpKind.Out, path := some ["r", "b"] },
        screen_lines := [] }
      [{ nameBytes := [97], nameStr := some "a", isDir := false },
       { nameBytes := [98], nameStr := some "b", isDir := true }] = 0 ∧
    ([{ nameBytes := [97], nameStr := some "a", isDir := false },
      { nameBytes := [98], nameStr := some "b", isDir := true }] : List Entry).findIdx?
        (fun x => x.nameStr == some (hintName ["r", "b"])) = some 1 ∧
    (0 : Int) ≠ (1 : Int) := by
  refine ⟨rfl, by decide, by decide⟩

/-- C5 (amended): after a MoveOut immediately followed by a re-list of the
parent, when the parent directory has no entry in `PositionMemory`
(a remembered index takes precedence over the hint otherwise), the cursor is
set to the index of the first entry of the new listing whose name equals the
`PendingTransitionHint` (the name of the directory just left); if no entry
has that name, the cursor defaults to 0. -/
theorem C5_hint_restore (s : State) (content : List Entry) (p : FsPath)
    (hmem : s.paths.lookup s.dir = none)
    (hop : s.prev_op = some { kind := OpKind.Out, path := some p }) :
    (∀ (i : Nat) (e : Entry), content[i]? = some e →
      (e.nameStr == some (hintName p)) = true →
      (∀ (j : Nat) (f : Entry), j < i → content[j]? = some f →
        (f.nameStr == some (hintName p)) = false) →
      cursor_position s content = ((i : Nat) : Int)) ∧
    ((∀ x ∈ content, (x.nameStr == some (hintName p)) = false) →
      cursor_position s content = 0) := by
  have hcp : cursor_position s content =
      (((content.findIdx? (fun x => x.nameStr == some (hintName p))).getD 0 : Nat) : Int) := by
    unfold cursor_position
    rw [hmem, hop]
    rfl
  constructor
  · intro i e he hp hbefore
    have hi : i < content.length := by
      by_contra hle
      rw [List.getElem?_eq_none (by omega)] at he
      exact absurd he (by simp)
    have hie : content.get ⟨i, hi⟩ = e := by
      have h1 := List.getElem?_eq_getElem hi
      rw [he] at h1
      exact (Option.some_injective _ h1.symm)
    rw [hcp, findIdx?_eq_some_of _ content i hi (by rw [hie]; exact hp)
      (fun j hj => hbefore j (content.get ⟨j, Nat.lt_trans hj hi⟩) hj
        (List.getElem?_eq_getElem (Nat.lt_trans hj hi)))]
    rfl
  · intro hnone
    rw [hcp, List.findIdx?_eq_none_iff.mpr hnone]
    rfl

/-- C5 (witness): with empty position memory and hint `["r", "b"]`, the
cursor lands on index 1, where the fresh listing holds the entry named
`"b"`. -/
theorem C5_hint_restore_witness :
    cursor_position
      { cursor := 0, dir := ["r"], paths := [],
        prev_op := some { kind := OpKind.Out, path := some ["r", "b"] },
        screen_lines := [] }
      [{ nameBytes := [97], nameStr := some "a", isDir := false },
       { nameBytes := [98], nameStr := some "b", isDir := true }] = ((1 : Nat) : Int) := by
  refine (C5_hint_restore
      { cursor := 0, dir := ["r"], paths := [],
        prev_op := some { kind := OpKind.Out, path := some ["r", "b"] },
        screen_lines := [] }
      [{ nameBytes := [97], nameStr := some "a", isDir := false },
       { nameBytes := [98], nameStr := some "b", isDir := true }]
      ["r", "b"] rfl rfl).1 1
      { nameBytes := [98], nameStr := some "b", isDir := true } rfl (by decide) ?_
  intro j f hj hf
  have hj0 : j = 0 := by omega
  subst hj0
  have hfa : f = { nameBytes := [97], nameStr := some "a", isDir := false } := by
    simp at hf
    exact hf.symm
  subst hfa
  decide

/-- C6 (counterexample): MoveDown does not leave every non-cursor state field
unchanged: pressing `'j'` also clears the `prev_op` hint, here from
`some (Op Out none)` to `none`. -/
theorem C6_counterexample :
    (handle_keypress 'j' []
      { cursor := 0, dir := [], paths := [],
        prev_op := some { kind := OpKind.Out, path := none },
        screen_lines := ["d", "", "   a", "   b"] }).2.prev_op = none ∧
    (handle_keypress 'j' []
      { cursor := 0, dir := [], paths := [],
        prev_op := some { kind := OpKind.Out, path := none },
        screen_lines := ["d", "", "   a", "   b"] }).2.prev_op ≠
      some { kind := OpKind.Out, path := none } := by
  refine ⟨rfl, by decide⟩

/-- C6 (amended): for a state rendering a listing of length `n ≥ 1`
(`screen_lines` has `n + 2` rows) and an in-bounds cursor `c`, MoveDown sets
the cursor to `min (c + 1) (n - 1)` and MoveUp to `max (c - 1) 0`; besides
the cursor, the only field these two commands change is the
`PendingTransitionHint` `prev_op`, which both clear; the working directory,
position memory and screen lines are unchanged. -/
theorem C6_move_down_up (cwd : FsPath) (s : State) (n : Nat)
    (hlen : s.screen_lines.length = n + 2) (_hn : 1 ≤ n)
    (h0 : 0 ≤ s.cursor) (hlt : s.cursor < (n : Int)) :
    handle_keypress 'j' cwd s =
      (cwd, { s with cursor := min (s.cursor + 1) ((n : Int) - 1), prev_op := none }) ∧
    handle_keypress 'k' cwd s =
      (cwd, { s with cursor := max (s.cursor - 1) 0, prev_op := none }) := by
  constructor
  · show (cwd, { s with cursor := move_down s, prev_op := none }) = _
    have hmv : move_down s = min (s.cursor + 1) ((n : Int) - 1) := by
      unfold move_down
      rw [hlen]
      simp only [Nat.add_sub_cancel]
      split <;> omega
    rw [hmv]
  · show (cwd, { s with cursor := move_up s, prev_op := none }) = _
    have hmv : move_up s = max (s.cursor - 1) 0 := by
      unfold move_up
      split <;> omega
    rw [hmv]

/-- C6 (witness): in a 2-entry listing with the cursor at 0, `'j'` moves the
cursor to `min 1 1 = 1` and clears the hint. -/
theorem C6_move_down_up_witness :
    handle_keypress 'j' []
      { cursor := 0, dir := [], paths := [],
        prev_op := some { kind := OpKind.Out, path := none },
        screen_lines := ["d", "", "   a", "   b"] } =
      ([], { ({ cursor := 0, dir := [], paths := [],
                prev_op := some { kind := OpKind.Out, path := none },
                screen_lines := ["d", "", "   a", "   b"] } : State) with
             cursor := min ((0 : Int) + 1) (((2 : Nat) : Int) - 1), prev_op := none }) := by
  exact (C6_move_down_up []
    { cursor := 0, dir := [], paths := [],
      prev_op := some { kind := OpKind.Out, path := none },
      screen_lines := ["d", "", "   a", "   b"] }
    2 rfl (by decide) (by decide) (by decide)).1

/-- C8 (confirmed): for a non-empty listing and in-bounds cursor the
formatter yields: line 0 the current directory path, line 1 blank, and line
`i + 2` the rendering of entry `i` — directories get a trailing `'/'`
appended to the name, files the bare name (both behind the 3-space
indentation) — while exactly the entry at the cursor carries the leading
`" > "` marker, with the line's leading indentation stripped. -/
theorem C8_formatter (d : String) (content : List Entry) (cursor : Nat)
    (hne : content ≠ []) (hc : cursor < content.length) :
    (format_screen_lines d (cursor : Int) content).length = content.length + 2 ∧
    (format_screen_lines d (cursor : Int) content)[0]? = some d ∧
    (format_screen_lines d (cursor : Int) content)[1]? = some "" ∧
    (∀ e v, e ∈ content → e.nameStr = some v →
      pathbuf_to_string e = if e.isDir then "   " ++ v ++ "/" else "   " ++ v) ∧
    (∀ (i : Nat) (hi : i < content.length), i ≠ cursor →
      (format_screen_lines d (cursor : Int) content)[i + 2]? =
        some (pathbuf_to_string (content.get ⟨i, hi⟩))) ∧
    (format_screen_lines d (cursor : Int) content)[cursor + 2]? =
      some (" > " ++ trimStart (pathbuf_to_string (content.get ⟨cursor, hc⟩))) ∧
    (∀ (i : Nat), i < content.length →
      (hasMarker ((format_screen_lines d (cursor : Int) content).getD (i + 2) "") = true ↔
        i = cursor)) := by
  refine ⟨format_screen_lines_length d cursor content hne,
    format_screen_lines_zero d cursor content hne,
    format_screen_lines_one d cursor content hne,
    ?_,
    fun i hi hne2 => format_screen_lines_entry_ne d cursor content hne i hi hne2,
    format_screen_lines_entry_cursor d cursor content hne hc,
    ?_⟩
  · intro e v _ hv
    simp [pathbuf_to_string, hv]
  · intro i hi
    constructor
    · intro hm
      by_contra hne2
      have h1 := format_screen_lines_entry_ne d cursor content hne i hi hne2
      have h2 : (format_screen_lines d (cursor : Int) content).getD (i + 2) "" =
          pathbuf_to_string (content.get ⟨i, hi⟩) := by
        rw [List.getD_eq_getElem?_getD, h1]
        rfl
      rw [h2, hasMarker_pathbuf_to_string] at hm
      exact absurd hm (by simp)
    · intro h
      subst h
      rw [format_screen_lines_getD_cursor d i content hne hc]
      exact hasMarker_marker _

/-- C8 (witness): a two-entry listing under cursor 0 renders four lines, the
first being the directory path. -/
theorem C8_formatter_witness :
    (format_screen_lines "/a" ((0 : Nat) : Int)
      [{ nameBytes := [97], nameStr := some "a", isDir := false },
       { nameBytes := [98], nameStr := some "b", isDir := true }]).length = 4 ∧
    (format_screen_lines "/a" ((0 : Nat) : Int)
      [{ nameBytes := [97], nameStr := some "a", isDir := false },
       { nameBytes := [98], nameStr := some "b", isDir := true }])[0]? = some "/a" := by
  have h := C8_formatter "/a"
    [{ nameBytes := [97], nameStr := some "a", isDir := false },
     { nameBytes := [98], nameStr := some "b", isDir := true }] 0 (by decide) (by decide)
  exact ⟨h.1, h.2.1⟩

/-- C9 (counterexample): the claim promises that MoveInto on a directory
entry whose name has no `'>'` and no trailing `'/'` changes the working
directory to exactly that entry's path, but for the directory named `" d"`
(leading space) the derived target is `"d"`: the marker line's `trim_start`
also eats the name's own leading whitespace. -/
theorem C9_counterexample :
    move_into_target
      (format_screen_lines "/x" 0
        [{ nameBytes := [32, 100], nameStr := some " d", isDir := true }]) 0 [] =
      some [("d" : String)] ∧
    (some [("d" : String)] : Option FsPath) ≠ some [(" d" : String)] := by
  refine ⟨rfl, by decide⟩

/-- C9 (amended): MoveInto derives the target from the rendered cursor line
by trimming leading whitespace, stripping trailing `'/'`, replacing every
`'>'` by a space and trimming again.  For a directory entry whose name has no
`'>'`, no trailing `'/'`, and no leading whitespace, the target is exactly
that entry's path; an entry name containing `'>'` is resolved to a different
(rewritten) path. -/
theorem C9_move_into_path :
    (∀ (cwd : FsPath) (d : String) (content : List Entry) (cursor : Nat)
        (e : Entry) (v : String),
      content[cursor]? = some e → e.isDir = true → e.nameStr = some v →
      '>' ∉ v.data → v.data.getLast? ≠ some '/' →
      v.data.dropWhile rustIsWhitespace = v.data →
      move_into_target (format_screen_lines d (cursor : Int) content) (cursor : Int) cwd =
        some (cwd ++ [v])) ∧
    (∀ (cwd : FsPath) (d : String) (content : List Entry) (cursor : Nat)
        (e : Entry) (w : String),
      content[cursor]? = some e → e.isDir = true → e.nameStr = some w →
      '>' ∈ w.data →
      ∃ nd, move_into_target (format_screen_lines d (cursor : Int) content) (cursor : Int) cwd =
        some (cwd ++ [nd]) ∧ nd ≠ w) := by
  constructor
  · intro cwd d content cursor e v he hdir hv hgt hsl hws
    have hc := getElem?_some_lt he
    have hne : content ≠ [] := by
      intro h
      subst h
      simp at hc
    have hren : pathbuf_to_string (content.get ⟨cursor, hc⟩) = "   " ++ v ++ "/" := by
      rw [get_of_getElem? he hc]
      simp [pathbuf_to_string, hv, hdir]
    rw [move_into_target_eq, format_screen_lines_getD_cursor d cursor content hne hc,
      hren, endsWithSlash_marker_dir v, if_pos rfl,
      move_target_clean v hgt hsl hws]
  · intro cwd d content cursor e w he hdir hw hgt
    have hc := getElem?_some_lt he
    have hne : content ≠ [] := by
      intro h
      subst h
      simp at hc
    have hren : pathbuf_to_string (content.get ⟨cursor, hc⟩) = "   " ++ w ++ "/" := by
      rw [get_of_getElem? he hc]
      simp [pathbuf_to_string, hw, hdir]
    rw [move_into_target_eq, format_screen_lines_getD_cursor d cursor content hne hc,
      hren, endsWithSlash_marker_dir w, if_pos rfl]
    refine ⟨trimStart (replaceGt (trimEndSlashes
      (trimStart (" > " ++ trimStart ("   " ++ w ++ "/"))))), rfl, ?_⟩
    intro heq
    have h1 := move_target_not_mem_gt
      (trimEndSlashes (trimStart (" > " ++ trimStart ("   " ++ w ++ "/"))))
    rw [heq] at h1
    exact h1 hgt

/-- C9 (witness): the clean directory name `"d"` resolves to exactly
`cwd ++ ["d"]`, and the name `"a>b"` resolves to some different path. -/
theorem C9_move_into_path_witness :
    move_into_target
      (format_screen_lines "/x" ((0 : Nat) : Int)
        [{ nameBytes := [100], nameStr := some "d", isDir := true }]) ((0 : Nat) : Int) [] =
      some ["d"] ∧
    (∃ nd, move_into_target
      (format_screen_lines "/y" ((0 : Nat) : Int)
        [{ nameBytes := [97, 62, 98], nameStr := some "a>b", isDir := true }])
        ((0 : Nat) : Int) [] = some ([] ++ [nd]) ∧ nd ≠ "a>b") := by
  constructor
  · exact C9_move_into_path.1 [] "/x"
      [{ nameBytes := [100], nameStr := some "d", isDir := true }] 0
      { nameBytes := [100], nameStr := some "d", isDir := true } "d"
      rfl rfl rfl (by decide) (by decide) (by decide)
  · exact C9_move_into_path.2 [] "/y"
      [{ nameBytes := [97, 62, 98], nameStr := some "a>b", isDir := true }] 0
      { nameBytes := [97, 62, 98], nameStr := some "a>b", isDir := true } "a>b"
      rfl rfl rfl (by decide)

/-- C10 (confirmed): an entry whose last path component is absent or not
valid UTF-8 renders as the empty display line — no marker, no name — while
still occupying one row of the listing; it can be selected by the cursor, in
which case its row shows just the marker `" > "`. -/
theorem C10_invalid_name_empty_line (d : String) (content : List Entry) (i cursor : Nat)
    (hi : i < content.length) (hc : cursor < content.length)
    (hname : (content.get ⟨i, hi⟩).nameStr = none) :
    pathbuf_to_string (content.get ⟨i, hi⟩) = "" ∧
    (format_screen_lines d (cursor : Int) content).length = content.length + 2 ∧
    (i ≠ cursor → (format_screen_lines d (cursor : Int) content)[i + 2]? = some "") ∧
    (i = cursor → (format_screen_lines d (cursor : Int) content)[i + 2]? = some " > ") := by
  have hne : content ≠ [] := by
    intro h
    subst h
    simp at hi
  have hps : pathbuf_to_string (content.get ⟨i, hi⟩) = "" := by
    unfold pathbuf_to_string
    rw [hname]
  refine ⟨hps, format_screen_lines_length d cursor content hne, ?_, ?_⟩
  · intro hne2
    rw [format_screen_lines_entry_ne d cursor content hne i hi hne2, hps]
  · intro he
    subst he
    have hps2 : pathbuf_to_string (content.get ⟨i, hc⟩) = "" := by
      unfold pathbuf_to_string
      rw [show (content.get ⟨i, hc⟩).nameStr = none from hname]
    rw [format_screen_lines_entry_cursor d i content hne hc, hps2]
    rfl

/-- C10 (witness): a non-UTF-8-named entry at row 0 below the header lines
renders as the empty line when the cursor is elsewhere. -/
theorem C10_invalid_name_empty_line_witness :
    pathbuf_to_string
      ({ nameBytes := [255], nameStr := none, isDir := false } : Entry) = "" ∧
    (format_screen_lines "/a" ((1 : Nat) : Int)
      [{ nameBytes := [255], nameStr := none, isDir := false },
       { nameBytes := [97], nameStr := some "a", isDir := false }])[0 + 2]? = some "" := by
  have h := C10_invalid_name_empty_line "/a"
    [{ nameBytes := [255], nameStr := none, isDir := false },
     { nameBytes := [97], nameStr := some "a", isDir := false }] 0 1
    (by decide) (by decide) rfl
  exact ⟨h.1, h.2.2.1 (by decide)⟩

end Nuice
